import Mathlib

/-!
Shallow embedding of the address-book core of `src/answer.py`.

Python strings are modelled as `List Char`, Python exceptions as the
`PyErr` type carried in `Except`, and mutable objects as explicit state
passing.  Every definition is translated from the source; the few
definitions whose names end in `Spec` state properties in the words of
the specification, for comparison with the source-derived ones.
-/

set_option autoImplicit false

deriving instance DecidableEq for Except

/-- Python `needle in hay` prefix test: does `hay` start with `needle`? -/
def listStarts : List Char → List Char → Bool
  | [], _ => true
  | _ :: _, [] => false
  | a :: as, b :: bs => a = b && listStarts as bs

/-- Python substring containment `needle in hay` (str.__contains__). -/
def containsSub (needle : List Char) : List Char → Bool
  | [] => listStarts needle []
  | c :: rest => listStarts needle (c :: rest) || containsSub needle rest

/-- Python `sep.join(parts)`. -/
def joinSep (sep : List Char) : List (List Char) → List Char
  | [] => []
  | [x] => x
  | x :: y :: rest => x ++ sep ++ joinSep sep (y :: rest)

/-- The whitespace characters relevant to Python `int(...)` stripping and
to the notion of whitespace used by the specification. -/
def isWs (c : Char) : Bool :=
  c = ' ' || c = '\t' || c = '\n' || c = '\r'

/-- `value.replace(" ", "")` from `PhoneField.validate`: removes every
space character (and only the space character U+0020). -/
def removeSpaces (l : List Char) : List Char :=
  l.filter (fun c => !(c = ' '))

/-- Removal of every whitespace character.  This follows the
specification's words ("strip all whitespace from input") and is used
only to state claims; the source removes spaces only (`removeSpaces`). -/
def stripAllWsSpec (l : List Char) : List Char :=
  l.filter (fun c => !(isWs c))

/-- Digit run to a natural number; `none` when empty or not all digits
(the failure cases of Python `int(str)` after sign handling). -/
def digitsToNat (l : List Char) : Option Nat :=
  match l with
  | [] => none
  | _ =>
    if l.all Char.isDigit then
      some (l.foldl (fun a c => a * 10 + (c.toNat - 48)) 0)
    else none

/-- Python `int(s)` on a string: strip surrounding whitespace, optional
sign, decimal digits; raises `ValueError` otherwise.  (Digit-group
underscores and non-ASCII digits, which CPython also accepts, are not
modelled; no analysed behavior depends on them.) -/
def strToInt (l : List Char) : Option Int :=
  let t := ((l.dropWhile isWs).reverse.dropWhile isWs).reverse
  match t with
  | '-' :: ds => (digitsToNat ds).map (fun n => -(n : Int))
  | '+' :: ds => (digitsToNat ds).map (fun n => (n : Int))
  | ds => (digitsToNat ds).map (fun n => (n : Int))

/-- Decimal rendering of an integer (used for the JSON keys that
`json.dumps` produces from the int contact ids). -/
def intToStr (i : Int) : List Char :=
  if i < 0 then '-' :: Nat.toDigits 10 i.natAbs else Nat.toDigits 10 i.natAbs

/-- The Python exceptions that the core can raise.  `incorrectInput` is
the source's `IncorrectInput` (the spec's ValidationError / InvalidIndex),
`fieldDecodeError` its `FieldDecodeError` (the spec's DecodeError);
`valueError`, `typeError`, `keyError` and `indexError` are the builtin
exceptions of the same names. -/
inductive PyErr where
  | incorrectInput (msg : List Char)
  | fieldDecodeError (msg : List Char)
  | valueError (msg : List Char)
  | typeError (msg : List Char)
  | keyError (msg : List Char)
  | indexError (msg : List Char)
  deriving DecidableEq, Repr

/-- A value supplied as an index/id: either a Python int or a str. -/
inductive PyVal where
  | int (i : Int)
  | str (s : List Char)
  deriving DecidableEq, Repr

/-- Python `int(x)` applied to an index value. -/
def pyInt : PyVal → Except PyErr Int
  | .int i => .ok i
  | .str s =>
    match strToInt s with
    | some i => .ok i
    | none => .error (.valueError ("invalid literal for int() with base 10".data))

/-- `index_error_decorator` from the source: runs the body and converts a
`ValueError` into `IncorrectInput("Index value is not integer!")`; every
other outcome (success or any other exception) passes through unchanged. -/
def index_error_decorator {α : Type} (r : Except PyErr α) : Except PyErr α :=
  match r with
  | .error (.valueError _) => .error (.incorrectInput ("Index value is not integer!".data))
  | other => other

/-- Python list index normalization: a negative index counts from the
end; the result is the absolute position, or `none` (IndexError) when
out of range. -/
def pyIdx (n : Nat) (i : Int) : Option Nat :=
  let j := if i < 0 then i + n else i
  if 0 ≤ j ∧ j < n then some j.toNat else none

/-- The five field kinds (the Python field classes). -/
inductive FieldKind where
  | name | phone | email | birthday | note
  deriving DecidableEq, Repr

/-- The class attribute `field_description` of each field class. -/
def FieldKind.descr : FieldKind → List Char
  | .name => "Name".data
  | .phone => "Phone".data
  | .email => "Email".data
  | .birthday => "Birthday".data
  | .note => "Note".data

/-- A constructed field: its class (`kind`) and its `value` attribute.
The `PhoneField` sub-attributes (`country_code`, ...) are only ever used
to assemble `value` and are not observed elsewhere, so they are not
stored. -/
structure DataField where
  kind : FieldKind
  value : List Char
  deriving DecidableEq, Repr

/-- `NameField`: no validation, value stored as given. -/
def NameField.validate (v : List Char) : Except PyErr DataField :=
  .ok ⟨.name, v⟩

/-- `NoteField`: no validation, value stored as given. -/
def NoteField.validate (v : List Char) : Except PyErr DataField :=
  .ok ⟨.note, v⟩

/-! ### Birthday: `datetime.strptime(value, "%d.%m.%Y")` -/

/-- Digit value of a char. -/
def dv (c : Char) : Nat := c.toNat - 48

/-- The `%d` / `%m` directives: a two-digit form whose value lies in
`1..hi` is preferred, otherwise a single nonzero digit (this reproduces
the alternations `3[01]|[12]\d|0[1-9]|[1-9]` and `1[0-2]|0[1-9]|[1-9]`
used by CPython's strptime). -/
def parseTwoOrOne (hi : Nat) (l : List Char) : Option (Nat × List Char) :=
  match l with
  | a :: b :: rest =>
    if a.isDigit && b.isDigit && decide (1 ≤ 10 * dv a + dv b) && decide (10 * dv a + dv b ≤ hi) then
      some (10 * dv a + dv b, rest)
    else if a.isDigit && decide (1 ≤ dv a) && decide (dv a ≤ hi) then
      some (dv a, b :: rest)
    else none
  | [a] =>
    if a.isDigit && decide (1 ≤ dv a) && decide (dv a ≤ hi) then some (dv a, []) else none
  | [] => none

/-- The `%Y` directive: exactly four digits. -/
def parseYear4 (l : List Char) : Option (Nat × List Char) :=
  match l with
  | a :: b :: c :: d :: rest =>
    if a.isDigit && b.isDigit && c.isDigit && d.isDigit then
      some (1000 * dv a + 100 * dv b + 10 * dv c + dv d, rest)
    else none
  | _ => none

/-- Gregorian leap year. -/
def isLeap (y : Nat) : Bool :=
  y % 4 = 0 && (!(y % 100 = 0) || y % 400 = 0)

/-- Days in a month. -/
def daysInMonth (y m : Nat) : Nat :=
  if m = 2 then (if isLeap y then 29 else 28)
  else if m = 4 || m = 6 || m = 9 || m = 11 then 30
  else 31

/-- `datetime.strptime(s, "%d.%m.%Y")`: day, dot, month, dot, 4-digit
year, whole input consumed, then the calendar checks performed by the
`datetime` constructor (valid day of month, year at least 1).  `none`
stands for the `ValueError` strptime raises. -/
def strptimeDMY (l : List Char) : Option (Nat × Nat × Nat) :=
  match parseTwoOrOne 31 l with
  | none => none
  | some (day, r1) =>
    match r1 with
    | '.' :: r2 =>
      match parseTwoOrOne 12 r2 with
      | none => none
      | some (month, r3) =>
        match r3 with
        | '.' :: r4 =>
          match parseYear4 r4 with
          | none => none
          | some (year, r5) =>
            if r5 = [] then
              if 1 ≤ year ∧ day ≤ daysInMonth year month then some (day, month, year)
              else none
            else none
        | _ => none
    | _ => none

/-- A `datetime` object is always truthy, so the source's
`if not datetime.strptime(...)` test can never fire. -/
def datetimeTruthy (_ : Nat × Nat × Nat) : Bool := true

/-- `BirthdayField.validate`: `strptime` itself raises `ValueError` on a
malformed or invalid date (the message abstracts over CPython's several
message texts, none of which the program inspects); on success the
falsy-check is dead code and the raw input string is stored. -/
def BirthdayField.validate (v : List Char) : Except PyErr DataField :=
  match strptimeDMY v with
  | none => .error (.valueError ("time data does not match format %d.%m.%Y".data))
  | some d =>
    if datetimeTruthy d = false then
      .error (.incorrectInput (v ++ " is not a date dd.mm.yyy!".data))
    else .ok ⟨.birthday, v⟩

/-! ### Email: `re.compile(r"[^@]+@[^@]+\.[^@]+").match(value)` -/

/-- After a candidate dot has been chosen we require one non-`@`
character; scanning continues (the dot may instead be consumed by the
preceding `[^@]+`) but never across an `@`.  `emailDotSeek l` assumes at
least one non-`@` character has already been consumed since the `@`. -/
def emailDotSeek : List Char → Bool
  | [] => false
  | x :: rest =>
    if x = '@' then false
    else
      (x = '.' && (match rest with
                   | c :: _ => !(c = '@')
                   | [] => false))
      || emailDotSeek rest

/-- The `[^@]+\.[^@]+` part applied right after the first `@`. -/
def emailAfterAt : List Char → Bool
  | [] => false
  | x :: rest => !(x = '@') && emailDotSeek rest

/-- Scan for the `@` consumed by `[^@]+@` (necessarily the first `@`). -/
def emailSeekAt : List Char → Bool
  | [] => false
  | x :: rest => if x = '@' then emailAfterAt rest else emailSeekAt rest

/-- `EMAIL_REGEX.match(value)` as a boolean: at least one non-`@` char,
an `@`, then `[^@]+\.[^@]+`; trailing characters are ignored
(`match` anchors only at the start). -/
def emailMatch : List Char → Bool
  | [] => false
  | x :: rest => !(x = '@') && emailSeekAt rest

/-- `EmailField.validate`. -/
def EmailField.validate (v : List Char) : Except PyErr DataField :=
  if emailMatch v = false then
    .error (.incorrectInput (v ++ " is not an email.".data))
  else .ok ⟨.email, v⟩

/-! ### Phone: `re.search(r"^\+?(\d{2})?\(?(0\d{2})\)?(\d{7}$)", value)`

The pattern is anchored at the start by `^`; `re.search` therefore can
only match at position 0.  Each optional piece is tried greedily with a
fallback, exactly as the backtracking engine does.  `$` matches at the
end of the string or just before a terminating newline. -/

/-- Take exactly `n` digit characters. -/
def takeDigits : Nat → List Char → Option (List Char × List Char)
  | 0, rest => some ([], rest)
  | _ + 1, [] => none
  | n + 1, c :: rest =>
    if c.isDigit then (takeDigits n rest).map (fun p => (c :: p.1, p.2)) else none

/-- Position where `$` succeeds: end of input, or a single final newline. -/
def atDollar (rest : List Char) : Bool :=
  rest = [] || rest = ['\n']

/-- Group 3, `(\d{7}$)`: seven digits at the end. -/
def sub7 (l : List Char) : Option (List Char) :=
  match takeDigits 7 l with
  | some (ds, rest) => if atDollar rest then some ds else none
  | none => none

/-- `\)?(\d{7}$)` given the already-captured operator group. -/
def rpThen (op : List Char) (rest : List Char) : Option (List Char × List Char) :=
  match rest with
  | c :: r2 =>
    if c = ')' then
      match sub7 r2 with
      | some num => some (op, num)
      | none => (sub7 rest).map (fun num => (op, num))
    else (sub7 rest).map (fun num => (op, num))
  | [] => (sub7 rest).map (fun num => (op, num))

/-- Group 2 onward, `(0\d{2})\)?(\d{7}$)`; the operator group is NOT
optional in the pattern. -/
def opThen (l : List Char) : Option (List Char × List Char) :=
  match l with
  | c0 :: a :: b :: rest =>
    if c0 = '0' && a.isDigit && b.isDigit then rpThen ['0', a, b] rest else none
  | _ => none

/-- `\(?` then the rest: greedily consume a parenthesis, backtracking to
the no-parenthesis alternative on failure. -/
def lpOp (l : List Char) : Option (List Char × List Char) :=
  match l with
  | c :: rest =>
    if c = '(' then
      match opThen rest with
      | some r => some r
      | none => opThen l
    else opThen l
  | [] => opThen l

/-- `(\d{2})?` then the rest: greedily capture a two-digit country code,
backtracking to the absent alternative on failure. -/
def ccLayer (l : List Char) : Option (Option (List Char) × List Char × List Char) :=
  match l with
  | a :: b :: rest =>
    if a.isDigit && b.isDigit then
      match lpOp rest with
      | some (op, num) => some (some [a, b], op, num)
      | none => (lpOp l).map (fun p => (none, p.1, p.2))
    else (lpOp l).map (fun p => (none, p.1, p.2))
  | _ => (lpOp l).map (fun p => (none, p.1, p.2))

/-- The full anchored search: `\+?` then the rest.  Returns
`(group 1, group 2, group 3)` of the match, group 1 being optional. -/
def phoneSearch (l : List Char) : Option (Option (List Char) × List Char × List Char) :=
  match l with
  | c :: rest =>
    if c = '+' then
      match ccLayer rest with
      | some r => some r
      | none => ccLayer l
    else ccLayer l
  | [] => ccLayer l

/-- `PhoneField.validate`: strip spaces, run the search; no match raises
`IncorrectInput("No phone number found in ...")`.  Group 2 of the pattern
is not optional, so the search always yields it; the source's
`if operator is None` check is kept verbatim and is dead code. -/
def PhoneField.validate (value : List Char) : Except PyErr DataField :=
  let v := removeSpaces value
  match phoneSearch v with
  | none => .error (.incorrectInput ("No phone number found in ".data ++ v))
  | some (country, operator0, phone) =>
    let operatorG : Option (List Char) := some operator0
    match operatorG with
    | none => .error (.incorrectInput ("Operator code not found in ".data ++ v))
    | some op =>
      let cc := country.getD ("38".data)
      .ok ⟨.phone, '+' :: (cc ++ op ++ phone)⟩

/-! ### Field registry and decoding -/

/-- `REGISTERED_FIELDS`, in registration order: kind display name to the
class (its constructor/validator). -/
def REGISTERED_FIELDS : List (List Char × (List Char → Except PyErr DataField)) :=
  [ ("Name".data, NameField.validate)
  , ("Phone".data, PhoneField.validate)
  , ("Email".data, EmailField.validate)
  , ("Birthday".data, BirthdayField.validate)
  , ("Note".data, NoteField.validate) ]

/-- Dictionary lookup in the registry (KeyError modelled as `none`). -/
def registryLookup (n : List Char) : Option (List Char → Except PyErr DataField) :=
  match REGISTERED_FIELDS.find? (fun p => p.1 = n) with
  | some p => some p.2
  | none => none

/-- A serialized field object: the `field_name` and `value` entries,
`none` when the key is missing from the JSON object. -/
structure FieldJson where
  field_name : Option (List Char)
  value : Option (List Char)
  deriving DecidableEq, Repr

/-- The message of `FieldDecodeError` (the source text carries quotes
around the two key names; they are omitted here). -/
def decodeErrMsg : List Char :=
  "Wrong message format. field_name and value required".data

/-- `field_decoder`: look up `field_name` in the registry and construct
via the class; a `KeyError` from either dict access or the registry is
converted to `FieldDecodeError`, while an exception raised by the
constructor itself (validation failure) propagates unchanged. -/
def field_decoder (fd : FieldJson) : Except PyErr DataField :=
  match fd.field_name with
  | none => .error (.fieldDecodeError decodeErrMsg)
  | some n =>
    match registryLookup n with
    | none => .error (.fieldDecodeError decodeErrMsg)
    | some fieldClass =>
      match fd.value with
      | none => .error (.fieldDecodeError decodeErrMsg)
      | some v => fieldClass v

/-! ### Contact -/

/-- A contact: an ordered sequence of fields.  (`__init__` also sets
`phone`, `birthday`, `mail`, `note` attributes to `""`; they are never
read or written again anywhere in the program, so they are not stored.) -/
structure Contact where
  fields : List DataField
  deriving DecidableEq, Repr

/-- `Contact.add`: append and return `fields.index(field_item)`.  `index`
compares with default object identity and the appended object is fresh at
every call site, so it is found at its new (last) position. -/
def Contact.add (c : Contact) (f : DataField) : Contact × Nat :=
  (⟨c.fields ++ [f]⟩, c.fields.length)

/-- `Contact.replace`: `self.fields[index] = field_item`.  The index is
used as given — there is no `int(...)` conversion — so a `str` index
raises `TypeError` (which the decorator, catching only `ValueError`,
passes through) and an `int` index follows Python list assignment
semantics (negative indices count from the end, out of range raises
`IndexError`). -/
def Contact.replace (c : Contact) (index : PyVal) (f : DataField) : Except PyErr Contact :=
  index_error_decorator (
    match index with
    | .str _ => .error (.typeError ("list indices must be integers or slices, not str".data))
    | .int i =>
      match pyIdx c.fields.length i with
      | some j => .ok ⟨c.fields.set j f⟩
      | none => .error (.indexError ("list assignment index out of range".data)))

/-- `Contact.delete`: `idx = int(idx); self.fields.pop(idx)`. -/
def Contact.delete (c : Contact) (idx : PyVal) : Except PyErr Contact :=
  index_error_decorator (
    match pyInt idx with
    | .error e => .error e
    | .ok i =>
      match pyIdx c.fields.length i with
      | some j => .ok ⟨c.fields.eraseIdx j⟩
      | none => .error (.indexError ("pop index out of range".data)))

/-- Re-dispatch of `field.validate(value)` on the field's class. -/
def DataField.revalidate (f : DataField) (v : List Char) : Except PyErr DataField :=
  match f.kind with
  | .name => NameField.validate v
  | .phone => PhoneField.validate v
  | .email => EmailField.validate v
  | .birthday => BirthdayField.validate v
  | .note => NoteField.validate v

/-- `Contact.update`: parse the index, fetch the field, re-validate the
new raw value in place (each `validate` raises before writing, so a
failed update leaves the field unchanged).  The decorator converts any
`ValueError` — from `int(...)` or from a validator — into
`IncorrectInput("Index value is not integer!")`. -/
def Contact.update (c : Contact) (fieldIdx : PyVal) (v : List Char) : Except PyErr Contact :=
  index_error_decorator (
    match pyInt fieldIdx with
    | .error e => .error e
    | .ok i =>
      match pyIdx c.fields.length i with
      | some j =>
        match c.fields.get? j with
        | some f =>
          match f.revalidate v with
          | .ok f' => .ok ⟨c.fields.set j f'⟩
          | .error e => .error e
        | none => .error (.indexError ("list index out of range".data))
      | none => .error (.indexError ("list index out of range".data)))

/-- `Contact.field_search`: scan the fields in order and, at the FIRST
field whose description equals `field_name`, return whether its value
contains `search_value`; `False` when no field of that kind exists. -/
def fieldSearchAux (fieldName searchValue : List Char) : List DataField → Bool
  | [] => false
  | f :: rest =>
    if f.kind.descr = fieldName then containsSub searchValue f.value
    else fieldSearchAux fieldName searchValue rest

/-- `Contact.field_search` entry point. -/
def Contact.field_search (c : Contact) (fieldName searchValue : List Char) : Bool :=
  fieldSearchAux fieldName searchValue c.fields

/-- `Contact.multiple_search`: every criterion must pass `field_search`. -/
def Contact.multiple_search (c : Contact) (items : List (List Char × List Char)) : Bool :=
  items.all (fun p => c.field_search p.1 p.2)

/-- `Contact.__contains__`: some field's value contains the item. -/
def Contact.containsStr (c : Contact) (item : List Char) : Bool :=
  c.fields.any (fun f => containsSub item f.value)

/-- The values of the Name fields, in order. -/
def Contact.nameValues (c : Contact) : List (List Char) :=
  c.fields.filterMap (fun f => if f.kind = .name then some f.value else none)

/-- The intermediate `name` string of `Contact.name`:
`" ".join(names) if names else ""`. -/
def Contact.nameFlat (c : Contact) : List Char :=
  if c.nameValues.isEmpty then [] else joinSep [' '] c.nameValues

/-- `Contact.name` (the displayName view): the flattened name string is
joined AGAIN character by character (`" ".join(name)` over a `str`
iterates its characters), and `"No name"` is returned exactly when that
result is the single-space string. -/
def Contact.name (c : Contact) : List Char :=
  let result := joinSep [' '] (c.nameFlat.map (fun ch => [ch]))
  if result = [' '] then "No name".data else result

/-- `Contact.get_phone`: semicolon-joined Phone values, `""` if none
(`"; ".join` of an empty list is already `""`). -/
def Contact.get_phone (c : Contact) : List Char :=
  joinSep ("; ".data) (c.fields.filterMap (fun f => if f.kind = .phone then some f.value else none))

/-- `Contact.to_json`: the serialized field list. -/
def DataField.to_json (f : DataField) : FieldJson :=
  ⟨some f.kind.descr, some f.value⟩

/-- A serialized contact: the `fields` entry.  Outer `none` = key
missing (a raw `KeyError` in `from_json`), inner `none` = JSON `null`
(falsy, treated as no fields). -/
structure ContactJson where
  fieldsEntry : Option (Option (List FieldJson))
  deriving DecidableEq, Repr

/-- `Contact.to_json`. -/
def Contact.to_json (c : Contact) : ContactJson :=
  ⟨some (some (c.fields.map DataField.to_json))⟩

/-- Decode a field list in order, stopping at the first failure. -/
def decodeFields : List FieldJson → Except PyErr (List DataField)
  | [] => .ok []
  | fd :: rest =>
    match field_decoder fd with
    | .error e => .error e
    | .ok f =>
      match decodeFields rest with
      | .error e => .error e
      | .ok fs => .ok (f :: fs)

/-- `Contact.from_json` on a fresh contact: missing `fields` key raises
`KeyError`; a falsy field list (null or empty) adds nothing; otherwise
each field is decoded and added in order. -/
def Contact.from_json (cj : ContactJson) : Except PyErr Contact :=
  match cj.fieldsEntry with
  | none => .error (.keyError ("fields".data))
  | some none => .ok ⟨[]⟩
  | some (some fl) =>
    match decodeFields fl with
    | .error e => .error e
    | .ok fs => .ok ⟨fs⟩

/-! ### AddressBook

The `contacts` dict is modelled as an insertion-ordered association list
with the usual Python dict operations. -/

/-- Dict lookup. -/
def dictGet (d : List (Int × Contact)) (k : Int) : Option Contact :=
  match d with
  | [] => none
  | (k', v) :: rest => if k' = k then some v else dictGet rest k

/-- Dict assignment: update in place (keeping the entry's position) when
the key is present, append otherwise. -/
def dictSet (d : List (Int × Contact)) (k : Int) (v : Contact) : List (Int × Contact) :=
  match d with
  | [] => [(k, v)]
  | (k', v') :: rest => if k' = k then (k, v) :: rest else (k', v') :: dictSet rest k v

/-- Dict `pop`: `none` is the `KeyError` on a missing key. -/
def dictPop (d : List (Int × Contact)) (k : Int) : Option (List (Int × Contact)) :=
  match d with
  | [] => none
  | (k', v') :: rest =>
    if k' = k then some rest else (dictPop rest k).map (fun r => (k', v') :: r)

/-- The address book: the `contacts` dict and the `last_contact_id`
counter. -/
structure AddressBook where
  contacts : List (Int × Contact)
  last_contact_id : Int
  deriving DecidableEq, Repr

/-- `AddressBook()`. -/
def ABFresh : AddressBook := ⟨[], 0⟩

/-- `AddressBook.add`: store under `last_contact_id`, increment the
counter, return the assigned id. -/
def AddressBook.add (ab : AddressBook) (c : Contact) : AddressBook × Int :=
  (⟨dictSet ab.contacts ab.last_contact_id c, ab.last_contact_id + 1⟩, ab.last_contact_id)

/-- `AddressBook.replace`: `KeyError` when the id is absent, otherwise
overwrite in place. -/
def AddressBook.replace (ab : AddressBook) (contact_id : Int) (c : Contact) :
    Except PyErr AddressBook :=
  match dictGet ab.contacts contact_id with
  | none => .error (.keyError ("contact not found".data))
  | some _ => .ok { ab with contacts := dictSet ab.contacts contact_id c }

/-- `AddressBook.delete`: parse the id (decorator converts a parse
failure to `IncorrectInput`), then `pop` (KeyError when absent). -/
def AddressBook.delete (ab : AddressBook) (contact_id : PyVal) : Except PyErr AddressBook :=
  index_error_decorator (
    match pyInt contact_id with
    | .error e => .error e
    | .ok k =>
      match dictPop ab.contacts k with
      | some d => .ok { ab with contacts := d }
      | none => .error (.keyError ("missing key".data)))

/-- `AddressBook.str_search`: the sub-dict of contacts containing the
string, original ids preserved. -/
def AddressBook.str_search (ab : AddressBook) (s : List Char) : List (Int × Contact) :=
  ab.contacts.filter (fun p => p.2.containsStr s)

/-- `AddressBook.multiple_search`. -/
def AddressBook.multiple_search (ab : AddressBook) (items : List (List Char × List Char)) :
    List (Int × Contact) :=
  ab.contacts.filter (fun p => p.2.multiple_search items)

/-- `AddressBook.clear`: empty the dict and reset the counter. -/
def AddressBook.clear (_ : AddressBook) : AddressBook := ⟨[], 0⟩

/-- `AddressBook.dumps`: every `(id, contact)` pair, id rendered as the
JSON string key. -/
def AddressBook.dumps (ab : AddressBook) : List (List Char × ContactJson) :=
  ab.contacts.map (fun p => (intToStr p.1, p.2.to_json))

/-- The loop of `AddressBook.loads`: build and decode each contact in
document order, `add` it; the first exception stops the loop, leaving
the contacts added so far in place. -/
def loadLoop (ab : AddressBook) : List (List Char × ContactJson) → AddressBook × Option PyErr
  | [] => (ab, none)
  | (_, cj) :: rest =>
    match Contact.from_json cj with
    | .error e => (ab, some e)
    | .ok c => loadLoop (ab.add c).1 rest

/-- `AddressBook.loads`.  The source clears the dict and then assigns
`self.last_contacts_id = 0` — a misspelling of `last_contact_id` that
creates a write-only attribute — so the id counter is NOT reset.  The
document is taken here in already-JSON-parsed form (`json.loads` of an
object literal yields its entries in document order). -/
def AddressBook.loads (ab : AddressBook) (doc : List (List Char × ContactJson)) :
    AddressBook × Option PyErr :=
  loadLoop { ab with contacts := [] } doc

/-! ### Operation traces over the address book -/

/-- One AddressBook operation of a session. -/
inductive ABOp where
  | addC (c : Contact)
  | replaceC (id : Int) (c : Contact)
  | deleteC (id : PyVal)
  | clearB
  | loadD (doc : List (List Char × ContactJson))

/-- Apply an operation; a raised exception leaves the state the Python
object reached at the raise point (no mutation for replace/delete, the
partial state for load). -/
def ABOp.apply (ab : AddressBook) : ABOp → AddressBook
  | .addC c => (ab.add c).1
  | .replaceC k c =>
    match ab.replace k c with
    | .ok ab' => ab'
    | .error _ => ab
  | .deleteC k =>
    match ab.delete k with
    | .ok ab' => ab'
    | .error _ => ab
  | .clearB => ab.clear
  | .loadD doc => (ab.loads doc).1

/-- State after a whole session of operations from a fresh book. -/
def runOps (ops : List ABOp) : AddressBook :=
  ops.foldl ABOp.apply ABFresh

/-! ## Helper lemmas -/

/-- Unfolding of `PhoneField.validate`: the dead `operator is None`
check reduces away definitionally. -/
theorem validate_phone_eq (value : List Char) :
    PhoneField.validate value
      = (match phoneSearch (removeSpaces value) with
         | none =>
           .error (.incorrectInput ("No phone number found in ".data ++ removeSpaces value))
         | some (country, op, num) =>
           .ok ⟨.phone, '+' :: (country.getD ("38".data) ++ op ++ num)⟩) := by
  unfold PhoneField.validate
  cases h : phoneSearch (removeSpaces value) with
  | none => simp [h]
  | some g =>
    obtain ⟨country, op, num⟩ := g
    simp [h]

/-! ## Claims -/

/-- C1 (code bug).  The claim says `load(dump())` renumbers contact ids
freshly from 0.  The counts and the per-contact ordered (kind, value)
pairs are indeed preserved, but `loads` assigns `self.last_contacts_id
= 0` — a misspelling of `last_contact_id` — so the counter is not reset
and the reloaded ids continue from the pre-load `last_contact_id`: a
book holding one contact under id 0 with counter 1 reloads that contact
under id 1, not id 0. -/
theorem c1_load_dump_ids_not_renumbered :
    AddressBook.loads ⟨[(0, ⟨[⟨.name, "Alice".data⟩]⟩)], 1⟩
        (AddressBook.dumps ⟨[(0, ⟨[⟨.name, "Alice".data⟩]⟩)], 1⟩)
      = (⟨[(1, ⟨[⟨.name, "Alice".data⟩]⟩)], 2⟩, none)
    ∧ ¬ ((AddressBook.loads ⟨[(0, ⟨[⟨.name, "Alice".data⟩]⟩)], 1⟩
        (AddressBook.dumps ⟨[(0, ⟨[⟨.name, "Alice".data⟩]⟩)], 1⟩)).1.contacts.map Prod.fst
          = [0]) := by
  decide

/-- C6 (code bug).  `Contact.replace` never converts its index, so a
string index — even an integer-parsable one — raises `TypeError`, which
the decorator (catching only `ValueError`) passes through; the claimed
`InvalidIndex` (`IncorrectInput`) is unreachable.  Out-of-range integer
indices do raise `IndexError` and in-bounds ones overwrite. -/
theorem c6_replace_type_error_not_invalid_index :
    Contact.replace ⟨[⟨.note, "x".data⟩]⟩ (.str "abc".data) ⟨.note, "y".data⟩
      = .error (.typeError ("list indices must be integers or slices, not str".data))
    ∧ Contact.replace ⟨[⟨.note, "x".data⟩]⟩ (.str "0".data) ⟨.note, "y".data⟩
      = .error (.typeError ("list indices must be integers or slices, not str".data))
    ∧ (∀ m, Contact.replace ⟨[⟨.note, "x".data⟩]⟩ (.str "abc".data) ⟨.note, "y".data⟩
      ≠ .error (.incorrectInput m))
    ∧ Contact.replace ⟨[⟨.note, "x".data⟩]⟩ (.int 5) ⟨.note, "y".data⟩
      = .error (.indexError ("list assignment index out of range".data))
    ∧ Contact.replace ⟨[⟨.note, "x".data⟩]⟩ (.int 0) ⟨.note, "y".data⟩
      = .ok ⟨[⟨.note, "y".data⟩]⟩ := by
  refine ⟨by decide, by decide, ?_, by decide, by decide⟩
  intro m h
  simp [Contact.replace, index_error_decorator] at h

/-- C7 (code bug).  `strptime` RAISES `ValueError` on an invalid date
instead of returning a falsy value, so `BirthdayField.validate` on
`"31.02.2020"` raises a raw `ValueError`, not the per-field
`IncorrectInput`; at `Contact.update` the decorator converts that
`ValueError` into `IncorrectInput` with the INDEX message
`"Index value is not integer!"`, not a kind-specific one.  The valid
date `"01.02.2020"` is stored as given. -/
theorem c7_birthday_raises_value_error :
    BirthdayField.validate ("31.02.2020".data)
      = .error (.valueError ("time data does not match format %d.%m.%Y".data))
    ∧ (∀ m, BirthdayField.validate ("31.02.2020".data) ≠ .error (.incorrectInput m))
    ∧ Contact.update ⟨[⟨.birthday, "01.02.2020".data⟩]⟩ (.int 0) ("31.02.2020".data)
      = .error (.incorrectInput ("Index value is not integer!".data))
    ∧ BirthdayField.validate ("01.02.2020".data) = .ok ⟨.birthday, "01.02.2020".data⟩ := by
  refine ⟨by decide, ?_, by decide, by decide⟩
  intro m h
  have e : BirthdayField.validate ("31.02.2020".data)
      = .error (.valueError ("time data does not match format %d.%m.%Y".data)) := by decide
  rw [e] at h
  simp at h

/-- C2, counterexample.  The claim quantifies over inputs matching the
phone pattern "after removing whitespace", but the source removes only
space characters: `"+38(099)123\t4567"` matches the pattern once ALL
whitespace is removed (its stripped form is accepted), yet creation on
it fails, because the tab survives `value.replace(" ", "")`. -/
theorem c2_whitespace_counterexample :
    stripAllWsSpec ("+38(099)123\t4567".data) = "+38(099)1234567".data
    ∧ PhoneField.validate ("+38(099)1234567".data)
        = .ok ⟨.phone, "+380991234567".data⟩
    ∧ PhoneField.validate ("+38(099)123\t4567".data)
        = .error (.incorrectInput ("No phone number found in +38(099)123\t4567".data)) := by
  decide

/-- C3, counterexample.  A contact with two Name fields where only the
SECOND value contains the substring: `field_search` returns `false`,
because the source returns at the first field of the requested kind. -/
theorem c3_second_field_counterexample :
    Contact.field_search ⟨[⟨.name, "a".data⟩, ⟨.name, "xb".data⟩]⟩ ("Name".data) ("b".data)
      = false
    ∧ containsSub ("b".data) ("xb".data) = true := by
  decide

/-- C3 (amended).  `field_search(kind, substring)` tests the FIRST field
of the given kind only: it equals "the first field whose description is
`kind` exists and its value contains `substring`"; `false` when no field
of that kind exists.  Later fields of the same kind are never examined. -/
theorem c3_field_search_first_match (c : Contact) (kind sv : List Char) :
    Contact.field_search c kind sv
      = (match c.fields.find? (fun f => f.kind.descr = kind) with
         | some f => containsSub sv f.value
         | none => false) := by
  unfold Contact.field_search
  induction c.fields with
  | nil => rfl
  | cons f rest ih =>
    by_cases h : f.kind.descr = kind
    · simp [fieldSearchAux, h, List.find?]
    · simp only [fieldSearchAux, if_neg h, ih, List.find?]
      simp [h]

/-- C4, counterexample.  `"+381234567"` (a `+`, a 2-digit country code
and a 7-digit subscriber number, with no operator segment) fails with
"No phone number found", not with the claimed "Operator code not
found". -/
theorem c4_operator_absent_counterexample :
    PhoneField.validate ("+381234567".data)
      = .error (.incorrectInput ("No phone number found in +381234567".data))
    ∧ PhoneField.validate ("+381234567".data)
      ≠ .error (.incorrectInput ("Operator code not found in +381234567".data)) := by
  decide

/-- C4 (amended).  The operator group `(0\d{2})` is not optional in
`PHONE_REGEX`, so an input without it simply fails the whole pattern:
every `PhoneField` creation either succeeds or fails with the
"No phone number found" error — the "Operator code not found" branch is
unreachable. -/
theorem c4_operator_error_unreachable (v : List Char) :
    (∃ f, PhoneField.validate v = .ok f)
    ∨ PhoneField.validate v
        = .error (.incorrectInput ("No phone number found in ".data ++ removeSpaces v)) := by
  rw [validate_phone_eq]
  cases h : phoneSearch (removeSpaces v) with
  | none => exact Or.inr rfl
  | some g =>
    obtain ⟨cc, op, num⟩ := g
    exact Or.inl ⟨_, rfl⟩

/-- C5, counterexample.  A contact with NO Name field renders as the
empty string, not as "No name"; a contact whose flattened name is the
whitespace-only `"   "` renders as five spaces, not as "No name".  (The
fallback fires only when the flattened name is exactly one space.) -/
theorem c5_no_name_counterexample :
    Contact.name ⟨[]⟩ = [] ∧ Contact.name ⟨[]⟩ ≠ "No name".data
    ∧ Contact.name ⟨[⟨.name, "   ".data⟩]⟩ = "     ".data
    ∧ Contact.name ⟨[⟨.name, "   ".data⟩]⟩ ≠ "No name".data := by
  decide

/-- The character-wise space join equals `" "` exactly when the joined
string itself is `" "`. -/
theorem joinChars_eq_single_space (s : List Char) :
    joinSep [' '] (s.map (fun ch => [ch])) = [' '] ↔ s = [' '] := by
  match s with
  | [] => simp [joinSep]
  | [x] =>
    simp [joinSep]
  | x :: y :: rest =>
    constructor
    · intro h
      simp [joinSep] at h
    · intro h
      simp at h

/-- The character-wise space join never accidentally spells "No name":
its even positions alternate with forced spaces. -/
theorem joinChars_ne_noName (s : List Char) :
    joinSep [' '] (s.map (fun ch => [ch])) ≠ "No name".data := by
  match s with
  | [] => simp [joinSep]
  | [x] => simp [joinSep]
  | x :: y :: rest =>
    intro h
    simp [joinSep] at h

/-- C5 (amended).  The "No name" fallback fires exactly when the
flattened name string (`" ".join` of the Name values, `""` when there
are none) is the single space character — e.g. one Name field `" "`, or
exactly two Name fields with empty values — and a contact with no Name
field (or whose flattened name is empty) renders as the EMPTY string.
A whitespace-only flattened name of any other shape renders as its
space-separated character expansion, not as "No name". -/
theorem c5_no_name_fallback_characterization (c : Contact) :
    (Contact.name c = "No name".data ↔ c.nameFlat = [' '])
    ∧ (c.nameFlat = [] → Contact.name c = []) := by
  unfold Contact.name
  constructor
  · constructor
    · intro h
      by_cases hr : joinSep [' '] (c.nameFlat.map (fun ch => [ch])) = [' ']
      · exact (joinChars_eq_single_space c.nameFlat).mp hr
      · rw [if_neg hr] at h
        exact absurd h (joinChars_ne_noName c.nameFlat)
    · intro h
      rw [if_pos ((joinChars_eq_single_space c.nameFlat).mpr h)]
  · intro h
    rw [h]
    simp [joinSep]

/-- A field object that lacks `field_name`, names an unregistered kind,
or lacks `value`, decodes to the `FieldDecodeError`. -/
theorem field_decoder_decode_error (bad : FieldJson)
    (hbad : bad.field_name = none
            ∨ (∃ n, bad.field_name = some n ∧ registryLookup n = none)
            ∨ bad.value = none) :
    field_decoder bad = .error (.fieldDecodeError decodeErrMsg) := by
  unfold field_decoder
  rcases hbad with h | ⟨n, hn, hr⟩ | h
  · simp [h]
  · simp [hn, hr]
  · cases hf : bad.field_name with
    | none => simp
    | some n =>
      cases hr : registryLookup n with
      | none => simp [hr]
      | some cls => simp [hr, h]

/-- Decoding a field list whose first failure is at `bad` surfaces
`bad`'s error. -/
theorem decodeFields_error (fpre : List FieldJson) (bad : FieldJson) (frest : List FieldJson)
    (e : PyErr)
    (hok : ∀ f ∈ fpre, ∃ df, field_decoder f = .ok df)
    (hbad : field_decoder bad = .error e) :
    decodeFields (fpre ++ bad :: frest) = .error e := by
  induction fpre with
  | nil => simp [decodeFields, hbad]
  | cons f rest ih =>
    obtain ⟨df, hdf⟩ := hok f (by simp)
    have hrest := ih (fun g hg => hok g (by simp [hg]))
    simp [decodeFields, hdf, hrest]

/-- The load loop distributes over a prefix all of whose contact entries
decode successfully. -/
theorem loadLoop_ok_append (pre rest : List (List Char × ContactJson)) (s : AddressBook)
    (hpre : ∀ p ∈ pre, ∃ c, Contact.from_json p.2 = .ok c) :
    loadLoop s (pre ++ rest) = loadLoop (loadLoop s pre).1 rest := by
  induction pre generalizing s with
  | nil => simp [loadLoop]
  | cons p ps ih =>
    obtain ⟨c, hc⟩ := hpre p (by simp)
    obtain ⟨kk, cjj⟩ := p
    simp only [List.cons_append, loadLoop, hc]
    exact ih _ (fun q hq => hpre q (by simp [hq]))

/-- C8 (confirmed).  When some contact entry of the document contains a
field lacking `field_name`/`value` or naming an unregistered kind (and
every earlier entry decodes), `load` raises the `FieldDecodeError` at
that entry and the book is left exactly as if only the preceding entries
had been loaded — contacts added before the failure remain; when the
failing entry is the first one, the book is left with zero contacts. -/
theorem c8_load_aborts_keeping_prefix
    (ab : AddressBook) (pre post : List (List Char × ContactJson))
    (k : List Char) (cj : ContactJson)
    (fpre frest : List FieldJson) (bad : FieldJson)
    (hpre : ∀ p ∈ pre, ∃ c, Contact.from_json p.2 = .ok c)
    (hfe : cj.fieldsEntry = some (some (fpre ++ bad :: frest)))
    (hfpre : ∀ f ∈ fpre, ∃ df, field_decoder f = .ok df)
    (hbad : bad.field_name = none
            ∨ (∃ n, bad.field_name = some n ∧ registryLookup n = none)
            ∨ bad.value = none) :
    ab.loads (pre ++ (k, cj) :: post)
      = ((ab.loads pre).1, some (.fieldDecodeError decodeErrMsg))
    ∧ (pre = [] → (ab.loads (pre ++ (k, cj) :: post)).1.contacts = []) := by
  have hcj : Contact.from_json cj = .error (.fieldDecodeError decodeErrMsg) := by
    unfold Contact.from_json
    simp only [hfe]
    rw [decodeFields_error fpre bad frest _ hfpre (field_decoder_decode_error bad hbad)]
  have hmain : ab.loads (pre ++ (k, cj) :: post)
      = ((ab.loads pre).1, some (.fieldDecodeError decodeErrMsg)) := by
    unfold AddressBook.loads
    rw [loadLoop_ok_append pre ((k, cj) :: post) _ hpre]
    simp [loadLoop, hcj]
  refine ⟨hmain, fun hnil => ?_⟩
  rw [hmain, hnil]
  rfl

/-- The id invariant: every key of the contacts dict is below the
counter. -/
def ABInv (ab : AddressBook) : Prop :=
  ∀ p ∈ ab.contacts, p.1 < ab.last_contact_id

/-- Membership after a dict assignment comes from the old dict or is the
new binding. -/
theorem dictSet_mem (d : List (Int × Contact)) (k : Int) (v : Contact)
    (p : Int × Contact) (hp : p ∈ dictSet d k v) : p ∈ d ∨ p = (k, v) := by
  induction d with
  | nil =>
    simp [dictSet] at hp
    exact Or.inr hp
  | cons q rest ih =>
    obtain ⟨k', v'⟩ := q
    by_cases h : k' = k
    · simp [dictSet, h] at hp
      rcases hp with hp | hp
      · exact Or.inr (by simp [hp])
      · exact Or.inl (by simp [hp])
    · simp [dictSet, h] at hp
      rcases hp with hp | hp
      · exact Or.inl (by simp [hp])
      · rcases ih hp with h1 | h1
        · exact Or.inl (by simp [h1])
        · exact Or.inr h1

/-- Assignment under a key absent from the dict keeps every old binding. -/
theorem dictSet_keeps (d : List (Int × Contact)) (k : Int) (v : Contact)
    (hfresh : ∀ q ∈ d, q.1 ≠ k) :
    ∀ p ∈ d, p ∈ dictSet d k v := by
  induction d with
  | nil => intro p hp; cases hp
  | cons q rest ih =>
    intro p hp
    obtain ⟨k', v'⟩ := q
    have hk' : k' ≠ k := hfresh (k', v') (by simp)
    simp only [dictSet, if_neg hk']
    rcases List.mem_cons.mp hp with hp | hp
    · exact List.mem_cons.mpr (Or.inl hp)
    · exact List.mem_cons.mpr (Or.inr (ih (fun q hq => hfresh q (by simp [hq])) p hp))

/-- Members surviving a dict `pop` were members before. -/
theorem dictPop_subset (d : List (Int × Contact)) (k : Int) (d' : List (Int × Contact))
    (h : dictPop d k = some d') : ∀ p ∈ d', p ∈ d := by
  induction d generalizing d' with
  | nil => simp [dictPop] at h
  | cons q rest ih =>
    obtain ⟨k', v'⟩ := q
    by_cases hk : k' = k
    · simp [dictPop, hk] at h
      intro p hp
      exact List.mem_cons.mpr (Or.inr (h ▸ hp))
    · simp only [dictPop, if_neg hk] at h
      cases hr : dictPop rest k with
      | none => rw [hr] at h; cases h
      | some r =>
        rw [hr] at h
        intro p hp
        obtain rfl : (k', v') :: r = d' := by simpa using h
        rcases List.mem_cons.mp hp with hp | hp
        · exact List.mem_cons.mpr (Or.inl hp)
        · exact List.mem_cons.mpr (Or.inr (ih r hr p hp))

/-- A key below none of the stored keys — in particular the counter
under the invariant — is unmapped. -/
theorem dictGet_eq_none (d : List (Int × Contact)) (k : Int)
    (h : ∀ p ∈ d, p.1 ≠ k) : dictGet d k = none := by
  induction d with
  | nil => rfl
  | cons q rest ih =>
    obtain ⟨k', v'⟩ := q
    have : k' ≠ k := h (k', v') (by simp)
    simp only [dictGet, if_neg this]
    exact ih (fun p hp => h p (by simp [hp]))

/-- A present key is a stored key. -/
theorem dictGet_mem (d : List (Int × Contact)) (k : Int) (c : Contact)
    (h : dictGet d k = some c) : (k, c) ∈ d := by
  induction d with
  | nil => simp [dictGet] at h
  | cons q rest ih =>
    obtain ⟨k', v'⟩ := q
    by_cases hk : k' = k
    · simp [dictGet, hk] at h
      exact List.mem_cons.mpr (Or.inl (by simp [hk, h]))
    · simp only [dictGet, if_neg hk] at h
      exact List.mem_cons.mpr (Or.inr (ih h))

/-- `add` preserves the invariant. -/
theorem ABInv_add (ab : AddressBook) (c : Contact) (h : ABInv ab) :
    ABInv (ab.add c).1 := by
  intro p hp
  rcases dictSet_mem _ _ _ p hp with hmem | rfl
  · exact lt_trans (h p hmem) (by simp only [AddressBook.add]; omega)
  · simp only [AddressBook.add]; omega

/-- The load loop preserves the invariant. -/
theorem ABInv_loadLoop (doc : List (List Char × ContactJson)) (s : AddressBook)
    (h : ABInv s) : ABInv (loadLoop s doc).1 := by
  induction doc generalizing s with
  | nil => exact h
  | cons p rest ih =>
    obtain ⟨kk, cjj⟩ := p
    cases hc : Contact.from_json cjj with
    | error e => simpa [loadLoop, hc] using h
    | ok c =>
      simp only [loadLoop, hc]
      exact ih _ (ABInv_add s c h)

/-- Every operation preserves the invariant. -/
theorem ABInv_apply (ab : AddressBook) (op : ABOp) (h : ABInv ab) :
    ABInv (op.apply ab) := by
  cases op with
  | addC c => exact ABInv_add ab c h
  | replaceC k c =>
    simp only [ABOp.apply]
    unfold AddressBook.replace
    cases hg : dictGet ab.contacts k with
    | none => simp only [hg]; exact h
    | some c0 =>
      simp only [hg]
      intro p hp
      rcases dictSet_mem _ _ _ p hp with hmem | hpe
      · exact h p hmem
      · rw [hpe]; exact h (k, c0) (dictGet_mem _ _ _ hg)
  | deleteC kv =>
    simp only [ABOp.apply]
    unfold AddressBook.delete index_error_decorator
    cases hi : pyInt kv with
    | error e => cases e <;> simp only [hi] <;> exact h
    | ok k =>
      simp only [hi]
      cases hp : dictPop ab.contacts k with
      | none => simp only [hp]; exact h
      | some d' =>
        simp only [hp]
        intro p hpm
        exact h p (dictPop_subset _ _ _ hp p hpm)
  | clearB => exact fun p hp => absurd hp (List.not_mem_nil p)
  | loadD doc =>
    simp only [ABOp.apply]
    unfold AddressBook.loads
    exact ABInv_loadLoop doc _ (fun p hp => absurd hp (List.not_mem_nil p))

/-- The invariant holds after any session. -/
theorem ABInv_runOps (ops : List ABOp) : ABInv (runOps ops) := by
  have general : ∀ (l : List ABOp) (s : AddressBook), ABInv s → ABInv (l.foldl ABOp.apply s) := by
    intro l
    induction l with
    | nil => intro s hs; exact hs
    | cons op rest ih => intro s hs; exact ih _ (ABInv_apply s op hs)
  exact general ops ABFresh (fun p hp => absurd hp (List.not_mem_nil p))

/-- C9 (confirmed).  After any sequence of operations from a fresh book,
every stored id is strictly below `last_contact_id`; consequently the id
`add` would assign next is not currently mapped, `add` leaves every
existing binding untouched (ids are never silently reassigned — only an
explicit `replace(id, contact)` overwrites its own target), and the
fresh id differs from every stored one. -/
theorem c9_id_allocation_invariant (ops : List ABOp) :
    (∀ p ∈ (runOps ops).contacts, p.1 < (runOps ops).last_contact_id)
    ∧ (∀ c : Contact,
        ((runOps ops).add c).2 = (runOps ops).last_contact_id
        ∧ dictGet (runOps ops).contacts ((runOps ops).add c).2 = none
        ∧ ∀ p ∈ (runOps ops).contacts, p ∈ (((runOps ops).add c).1).contacts ∧ p.1 ≠ ((runOps ops).add c).2) := by
  have hinv := ABInv_runOps ops
  refine ⟨hinv, fun c => ⟨rfl, ?_, fun p hp => ⟨?_, ?_⟩⟩⟩
  · exact dictGet_eq_none _ _ (fun p hp => ne_of_lt (hinv p hp))
  · exact dictSet_keeps _ _ _ (fun q hq => ne_of_lt (hinv q hq)) p hp
  · exact ne_of_lt (hinv p hp)

/-- The decorator is transparent on success. -/
theorem decorator_ok {α : Type} (x : α) : index_error_decorator (.ok x) = .ok x := rfl

/-- The decorator is transparent on `IndexError`. -/
theorem decorator_indexError {α : Type} (m : List Char) :
    index_error_decorator (α := α) (.error (.indexError m)) = .error (.indexError m) := rfl

/-- Whatever the decorator returns as an `IndexError` came out of the
body as that same `IndexError`. -/
theorem decorator_eq_indexError {α : Type} (r : Except PyErr α) (m : List Char)
    (h : index_error_decorator r = .error (.indexError m)) : r = .error (.indexError m) := by
  unfold index_error_decorator at h
  cases r with
  | ok x => simp at h
  | error e => cases e <;> simp_all

/-- A negative index within `-n..-1` normalizes to `i + n`. -/
theorem pyIdx_neg_ok (n : Nat) (i : Int) (h1 : -(n : Int) ≤ i) (h2 : i < 0) :
    pyIdx n i = some (i + n).toNat := by
  simp only [pyIdx]
  split_ifs <;> first | rfl | (exfalso; omega)

/-- A nonnegative index below `n` is used as is. -/
theorem pyIdx_nonneg_ok (n : Nat) (i : Int) (h1 : 0 ≤ i) (h2 : i < (n : Int)) :
    pyIdx n i = some i.toNat := by
  simp only [pyIdx]
  split_ifs <;> first | rfl | (exfalso; omega)

/-- Index normalization fails exactly outside `-n..n-1`. -/
theorem pyIdx_none_iff (n : Nat) (i : Int) :
    pyIdx n i = none ↔ (i < -(n : Int) ∨ (n : Int) ≤ i) := by
  simp only [pyIdx]
  split_ifs with h1 h2 h3 <;> simp <;> omega

/-- Re-validation never raises `IndexError`: each validator either
succeeds or raises `IncorrectInput`/`ValueError`. -/
theorem revalidate_no_indexError (f : DataField) (v : List Char) (m : List Char) :
    f.revalidate v ≠ .error (.indexError m) := by
  obtain ⟨kind, value⟩ := f
  cases kind with
  | name => simp [DataField.revalidate, NameField.validate]
  | note => simp [DataField.revalidate, NoteField.validate]
  | email =>
    by_cases he : emailMatch v = false <;>
      simp [DataField.revalidate, EmailField.validate, he]
  | birthday =>
    simp only [DataField.revalidate, BirthdayField.validate]
    cases hs : strptimeDMY v with
    | none => simp
    | some d => simp [datetimeTruthy]
  | phone =>
    simp only [DataField.revalidate]
    rw [validate_phone_eq]
    cases hp : phoneSearch (removeSpaces v) with
    | none => simp
    | some g => obtain ⟨a, b, nn⟩ := g; simp

/-- Unfolding of `Contact.delete` at an integer index. -/
theorem delete_int_eq (c : Contact) (i : Int) :
    Contact.delete c (.int i)
      = index_error_decorator
          (match pyIdx c.fields.length i with
           | some j => .ok ⟨c.fields.eraseIdx j⟩
           | none => .error (.indexError ("pop index out of range".data))) := rfl

/-- Unfolding of `Contact.update` at an integer index. -/
theorem update_int_eq (c : Contact) (i : Int) (v : List Char) :
    Contact.update c (.int i) v
      = index_error_decorator
          (match pyIdx c.fields.length i with
           | some j =>
             match c.fields.get? j with
             | some f =>
               match f.revalidate v with
               | .ok f' => .ok ⟨c.fields.set j f'⟩
               | .error e => .error e
             | none => .error (.indexError ("list index out of range".data))
           | none => .error (.indexError ("list index out of range".data))) := rfl

/-- C10 (confirmed).  `Contact.delete` and `Contact.update` accept
negative integer indices in `-n..-1`, addressing the fields from the end
(`delete(-1)` removes the last field, and `update` at `i < 0` behaves as
at `i + n`), and raise `IndexError` exactly for integer indices outside
`-n..n-1`. -/
theorem c10_negative_indices (c : Contact) (i : Int) (v : List Char) :
    ((-(c.fields.length : Int) ≤ i ∧ i < 0) →
      Contact.delete c (.int i) = .ok ⟨c.fields.eraseIdx (i + c.fields.length).toNat⟩
      ∧ Contact.update c (.int i) v = Contact.update c (.int (i + c.fields.length)) v)
    ∧ (Contact.delete c (.int i) = .error (.indexError ("pop index out of range".data))
        ↔ (i < -(c.fields.length : Int) ∨ (c.fields.length : Int) ≤ i))
    ∧ (Contact.update c (.int i) v = .error (.indexError ("list index out of range".data))
        ↔ (i < -(c.fields.length : Int) ∨ (c.fields.length : Int) ≤ i)) := by
  refine ⟨fun h => ?_, ⟨fun h => ?_, fun h => ?_⟩, ⟨fun h => ?_, fun h => ?_⟩⟩
  · have hidx := pyIdx_neg_ok c.fields.length i h.1 h.2
    have hidx2 := pyIdx_nonneg_ok c.fields.length (i + c.fields.length)
      (by omega) (by omega)
    constructor
    · rw [delete_int_eq, hidx]; rfl
    · rw [update_int_eq, update_int_eq, hidx, hidx2]
  · -- delete raised IndexError → out of bounds
    by_contra hout
    push_neg at hout
    rw [delete_int_eq] at h
    have hsome : ∃ j, pyIdx c.fields.length i = some j := by
      by_cases hneg : i < 0
      · exact ⟨_, pyIdx_neg_ok _ _ (by omega) hneg⟩
      · exact ⟨_, pyIdx_nonneg_ok _ _ (by omega) (by omega)⟩
    obtain ⟨j, hj⟩ := hsome
    rw [hj] at h
    simp [index_error_decorator] at h
  · -- out of bounds → delete raises IndexError
    rw [delete_int_eq, (pyIdx_none_iff _ _).mpr h]; rfl
  · -- update raised IndexError → out of bounds
    by_contra hout
    push_neg at hout
    have hlt : ∃ j, pyIdx c.fields.length i = some j ∧ j < c.fields.length := by
      by_cases hneg : i < 0
      · exact ⟨_, pyIdx_neg_ok _ _ (by omega) hneg, by omega⟩
      · exact ⟨_, pyIdx_nonneg_ok _ _ (by omega) (by omega), by omega⟩
    obtain ⟨j, hj, hjn⟩ := hlt
    cases hg : c.fields.get? j with
    | none => exact absurd (List.get?_eq_none.mp hg) (by omega)
    | some f =>
      have hres : Contact.update c (.int i) v
          = index_error_decorator
              (match f.revalidate v with
               | .ok f' => .ok ⟨c.fields.set j f'⟩
               | .error e => .error e) := by
        rw [update_int_eq, hj]
        simp only [hg]
      rw [hres] at h
      cases hr : f.revalidate v with
      | ok f' => rw [hr] at h; simp [index_error_decorator] at h
      | error e =>
        rw [hr] at h
        have h2 : index_error_decorator (α := Contact) (.error e)
            = .error (.indexError ("list index out of range".data)) := h
        have h3 := decorator_eq_indexError _ _ h2
        injection h3 with he
        rw [he] at hr
        exact revalidate_no_indexError f v _ hr
  · -- out of bounds → update raises IndexError
    rw [update_int_eq, (pyIdx_none_iff _ _).mpr h]; rfl

/-! ### The phone pattern on structurally decomposed inputs -/

/-- Exactly-`n` digit runs are taken whole. -/
theorem takeDigits_all (n : Nat) :
    ∀ (l : List Char), l.length = n → (∀ c ∈ l, c.isDigit = true) →
      takeDigits n l = some (l, []) := by
  induction n with
  | zero =>
    intro l hl _
    rw [List.length_eq_zero] at hl
    subst hl
    rfl
  | succ k ih =>
    intro l hl hd
    cases l with
    | nil => simp at hl
    | cons c rest =>
      simp only [takeDigits]
      rw [if_pos (hd c (by simp)), ih rest (by simpa using hl)
        (fun x hx => hd x (by simp [hx]))]
      rfl

/-- Too-short runs fail. -/
theorem takeDigits_short (n : Nat) :
    ∀ (l : List Char), l.length < n → takeDigits n l = none := by
  induction n with
  | zero => intro l h; exact absurd h (Nat.not_lt_zero _)
  | succ k ih =>
    intro l h
    cases l with
    | nil => rfl
    | cons c rest =>
      simp only [takeDigits]
      by_cases hc : c.isDigit
      · rw [if_pos hc, ih rest (by simp at h; omega)]
        rfl
      · rw [if_neg hc]

/-- A 7-digit run is the whole of group 3. -/
theorem sub7_of_digits (l : List Char) (h7 : l.length = 7)
    (hd : ∀ c ∈ l, c.isDigit = true) : sub7 l = some l := by
  simp [sub7, takeDigits_all 7 l h7 hd, atDollar]

/-- Fewer than 7 characters can never be group 3. -/
theorem sub7_short (l : List Char) (h : l.length < 7) : sub7 l = none := by
  simp [sub7, takeDigits_short 7 l h]

/-- A digit is none of the pattern's punctuation characters. -/
theorem digit_ne (c : Char) (h : c.isDigit = true) :
    c ≠ '(' ∧ c ≠ ')' ∧ c ≠ '+' := by
  refine ⟨?_, ?_, ?_⟩ <;> (rintro rfl; exact absurd h (by decide))

/-- `\)?(\d{7}$)` succeeds on an optional `)` followed by the 7-digit
subscriber number. -/
theorem rpThen_ok (op : List Char) (rp : Bool) (num : List Char)
    (h7 : num.length = 7) (hd : ∀ c ∈ num, c.isDigit = true) :
    rpThen op ((if rp then [')'] else []) ++ num) = some (op, num) := by
  cases rp with
  | true => simp [rpThen, sub7_of_digits num h7 hd]
  | false =>
    cases num with
    | nil => simp at h7
    | cons n1 rest =>
      have hn1 : n1 ≠ ')' := (digit_ne n1 (hd n1 (by simp))).2.1
      simp [rpThen, hn1, sub7_of_digits _ h7 hd]

/-- Group 2 onward succeeds on `0 d d` + optional `)` + 7 digits. -/
theorem opThen_ok (d1 d2 : Char) (rp : Bool) (num : List Char)
    (hd1 : d1.isDigit = true) (hd2 : d2.isDigit = true)
    (h7 : num.length = 7) (hd : ∀ c ∈ num, c.isDigit = true) :
    opThen ('0' :: d1 :: d2 :: ((if rp then [')'] else []) ++ num))
      = some (['0', d1, d2], num) := by
  simp [opThen, hd1, hd2, rpThen_ok _ rp num h7 hd]

/-- Group 2 fails when the leading `0` of its candidate is missing: after
the country-code layer greedily swallows `0` and the first operator
digit, the remainder `d2 ++ \)? ++ num` never parses (wrong leading
digit, a parenthesis where a digit is needed, or a short trailing run). -/
theorem opThen_backtrack (d2 : Char) (rp : Bool) (num : List Char)
    (hd2 : d2.isDigit = true)
    (h7 : num.length = 7) (hd : ∀ c ∈ num, c.isDigit = true) :
    opThen (d2 :: ((if rp then [')'] else []) ++ num)) = none := by
  cases rp with
  | true =>
    cases num with
    | nil => simp at h7
    | cons n1 rest =>
      simp [opThen, (by decide : (')'.isDigit) = false)]
  | false =>
    cases num with
    | nil => simp at h7
    | cons n1 rest =>
      cases rest with
      | nil => simp at h7
      | cons n2 rest2 =>
        by_cases hd2' : d2 = '0'
        · subst hd2'
          have h1 : n1.isDigit = true := hd n1 (by simp)
          have h2 : n2.isDigit = true := hd n2 (by simp)
          cases rest2 with
          | nil => simp at h7
          | cons n3 rest3 =>
            have hn3 : n3 ≠ ')' := (digit_ne n3 (hd n3 (by simp))).2.1
            have hlen : (n3 :: rest3).length < 7 := by
              simp only [List.length_cons] at h7 ⊢
              omega
            simp [opThen, h1, h2, rpThen, hn3, sub7_short _ hlen]
        · simp [opThen, hd2']

/-- `\(?` + group 2 onward succeeds on an optional `(` + `0 d d` +
optional `)` + 7 digits. -/
theorem lpOp_ok (lp rp : Bool) (d1 d2 : Char) (num : List Char)
    (hd1 : d1.isDigit = true) (hd2 : d2.isDigit = true)
    (h7 : num.length = 7) (hd : ∀ c ∈ num, c.isDigit = true) :
    lpOp ((if lp then ['('] else []) ++ '0' :: d1 :: d2 :: ((if rp then [')'] else []) ++ num))
      = some (['0', d1, d2], num) := by
  cases lp with
  | true => simp [lpOp, opThen_ok d1 d2 rp num hd1 hd2 h7 hd]
  | false => simp [lpOp, opThen_ok d1 d2 rp num hd1 hd2 h7 hd]

/-- After the country-code group greedily swallows the `0` and the first
operator digit, the whole remaining tail fails (so the engine backtracks
to the no-country-code alternative). -/
theorem lpOp_backtrack (rp : Bool) (d2 : Char) (num : List Char)
    (hd2 : d2.isDigit = true)
    (h7 : num.length = 7) (hd : ∀ c ∈ num, c.isDigit = true) :
    lpOp (d2 :: ((if rp then [')'] else []) ++ num)) = none := by
  have hne : d2 ≠ '(' := (digit_ne d2 hd2).1
  simp [lpOp, hne, opThen_backtrack d2 rp num hd2 h7 hd]

/-- The characters an optional country-code group contributes to the
input. -/
def ccChars : Option (Char × Char) → List Char
  | some p => [p.1, p.2]
  | none => []

/-- The value of group 1 for an optional country-code group. -/
def ccGroup : Option (Char × Char) → Option (List Char)
  | some p => some [p.1, p.2]
  | none => none

/-- The country-code layer resolves a structurally decomposed input to
exactly its declared groups (backtracking out of a greedily captured
country code when the decomposition has none). -/
theorem ccLayer_structural (cc : Option (Char × Char)) (lp rp : Bool) (d1 d2 : Char)
    (num : List Char)
    (hcc : ∀ a b, cc = some (a, b) → a.isDigit = true ∧ b.isDigit = true)
    (hd1 : d1.isDigit = true) (hd2 : d2.isDigit = true)
    (h7 : num.length = 7) (hd : ∀ c ∈ num, c.isDigit = true) :
    ccLayer (ccChars cc
             ++ (if lp then ['('] else [])
             ++ '0' :: d1 :: d2 :: ((if rp then [')'] else []) ++ num))
      = some (ccGroup cc, ['0', d1, d2], num) := by
  cases cc with
  | some p =>
    obtain ⟨a, b⟩ := p
    obtain ⟨ha, hb⟩ := hcc a b rfl
    have hl := lpOp_ok lp rp d1 d2 num hd1 hd2 h7 hd
    simp [ccChars, ccGroup, ccLayer, ha, hb, hl]
  | none =>
    cases lp with
    | true =>
      have h0 : ('('.isDigit) = false := by decide
      have hl := lpOp_ok true rp d1 d2 num hd1 hd2 h7 hd
      simp at hl
      simp [ccChars, ccGroup, ccLayer, h0, hl]
    | false =>
      have h0 : ('0'.isDigit) = true := by decide
      have hb := lpOp_backtrack rp d2 num hd2 h7 hd
      have hl := lpOp_ok false rp d1 d2 num hd1 hd2 h7 hd
      simp at hl
      simp [ccChars, ccGroup, ccLayer, h0, hd1, hb, hl]

/-- The full anchored search resolves a structurally decomposed input to
its declared groups. -/
theorem phoneSearch_structural (plus : Bool) (cc : Option (Char × Char)) (lp rp : Bool)
    (d1 d2 : Char) (num : List Char)
    (hcc : ∀ a b, cc = some (a, b) → a.isDigit = true ∧ b.isDigit = true)
    (hd1 : d1.isDigit = true) (hd2 : d2.isDigit = true)
    (h7 : num.length = 7) (hd : ∀ c ∈ num, c.isDigit = true) :
    phoneSearch ((if plus then ['+'] else [])
                 ++ ccChars cc
                 ++ (if lp then ['('] else [])
                 ++ '0' :: d1 :: d2 :: ((if rp then [')'] else []) ++ num))
      = some (ccGroup cc, ['0', d1, d2], num) := by
  have hcl := ccLayer_structural cc lp rp d1 d2 num hcc hd1 hd2 h7 hd
  simp only [List.append_assoc] at hcl
  cases plus with
  | true => simp [phoneSearch, List.append_assoc, hcl]
  | false =>
    cases cc with
    | some p =>
      obtain ⟨a, b⟩ := p
      have ha : a ≠ '+' := (digit_ne a (hcc a b rfl).1).2.2
      simp only [ccChars] at hcl ⊢
      simpa [phoneSearch, ha, List.append_assoc] using hcl
    | none =>
      have hlp : ('(' : Char) ≠ '+' := by decide
      have h0p : ('0' : Char) ≠ '+' := by decide
      cases lp with
      | true =>
        simp only [ccChars] at hcl ⊢
        simpa [phoneSearch, hlp, List.append_assoc] using hcl
      | false =>
        simp only [ccChars] at hcl ⊢
        simpa [phoneSearch, h0p, List.append_assoc] using hcl

/-- C2 (amended: the source strips only SPACE characters, not all
whitespace).  For every input whose space-stripped form decomposes as
optional `+`, optional 2-digit country code, optional `(`, operator code
`0dd`, optional `)`, and a terminating 7-digit subscriber number, Phone
field creation succeeds and the stored value is
`+` + countryCode + operatorCode + subscriberNumber with no internal
separators, the country code defaulting to `"38"` when the group is
absent.  (Inputs containing tabs or newlines are NOT stripped — see the
counterexample — so the claim's "after removing whitespace" holds only
for the space character.) -/
theorem c2_phone_canonicalization
    (s : List Char) (plus lp rp : Bool) (cc : Option (Char × Char)) (d1 d2 : Char)
    (num : List Char)
    (hcc : ∀ a b, cc = some (a, b) → a.isDigit = true ∧ b.isDigit = true)
    (hd1 : d1.isDigit = true) (hd2 : d2.isDigit = true)
    (h7 : num.length = 7) (hd : ∀ c ∈ num, c.isDigit = true)
    (hs : removeSpaces s
          = (if plus then ['+'] else [])
            ++ ccChars cc
            ++ (if lp then ['('] else [])
            ++ '0' :: d1 :: d2 :: ((if rp then [')'] else []) ++ num)) :
    PhoneField.validate s
      = .ok ⟨.phone, '+' :: ((ccGroup cc).getD ("38".data) ++ '0' :: d1 :: d2 :: num)⟩ := by
  rw [validate_phone_eq, hs,
    phoneSearch_structural plus cc lp rp d1 d2 num hcc hd1 hd2 h7 hd]
  simp

/-- Witness for C2 at the concrete input `"+38 (099) 123 4567"`. -/
theorem c2_phone_canonicalization_witness :
    PhoneField.validate ("+38 (099) 123 4567".data)
      = .ok ⟨.phone, "+380991234567".data⟩ := by
  have h := c2_phone_canonicalization ("+38 (099) 123 4567".data) true true true
      (some ('3', '8')) '9' '9' ("1234567".data)
      (by intro a b hab
          injection hab with h'
          cases h'
          exact ⟨by decide, by decide⟩)
      (by decide) (by decide) (by decide) (by decide) (by decide)
  exact h.trans (by decide)

/-- Witness for C8: loading a document whose first and only contact has
an unregistered field kind raises the decode error and leaves the book
with zero contacts. -/
theorem c8_load_aborts_keeping_prefix_witness :
    ABFresh.loads [("x".data, ⟨some (some [⟨some ("Bogus".data), some ("v".data)⟩])⟩)]
      = (⟨[], 0⟩, some (.fieldDecodeError decodeErrMsg))
    ∧ (ABFresh.loads
        [("x".data, ⟨some (some [⟨some ("Bogus".data), some ("v".data)⟩])⟩)]).1.contacts
      = [] := by
  have h := c8_load_aborts_keeping_prefix ABFresh [] []
      ("x".data) ⟨some (some [⟨some ("Bogus".data), some ("v".data)⟩])⟩
      [] [] ⟨some ("Bogus".data), some ("v".data)⟩
      (fun p hp => absurd hp (List.not_mem_nil p))
      rfl
      (fun f hf => absurd hf (List.not_mem_nil f))
      (Or.inr (Or.inl ⟨"Bogus".data, rfl, rfl⟩))
  exact ⟨h.1, h.2 rfl⟩
